import Mathlib

/-!
Verification of the Third-Life colony simulation core (shallow embedding).

The Rust source lives in `src/third_life/src/`.  Machine floats (`f32`)
are modelled as exact rationals `ℚ`, Bevy entity ids as `Nat`, and the
ECS components attached to an entity are flattened into explicit records.
Bevy `Commands` are deferred: structural changes (component insertions)
queued during a system run are applied only after the run finishes, so a
system's queries never observe its own insertions; the labor-matching
model below reproduces that by collecting the queued insertions first and
applying them at the end.
Fatal `unwrap`/panic paths are modelled with `Option` (`none` = panic).
-/

/-- Modelled from the spec: a simulation date (chrono `NaiveDate`), as used by
`GameDate` and citizen birthdays; the date type itself is external to the core. -/
structure Date where
  year : Nat
  month : Nat
  day : Nat
deriving DecidableEq, Repr

/-- True when the month/day of `a` comes strictly before the month/day of `b`
within a year. -/
def monthDayBefore (a b : Date) : Bool :=
  a.month < b.month || (a.month == b.month && a.day < b.day)

/-- Modelled from the spec: chrono's `NaiveDate::years_since` — the number of
whole years elapsed from `base` to `current`, `none` when `base` is in the
future. -/
def yearsSince (current base : Date) : Option Nat :=
  let adj : Nat := if monthDayBefore current base then 1 else 0
  if base.year + adj ≤ current.year then some (current.year - base.year - adj)
  else none

/-- Modelled from the spec: the `Citizen` entity with its optional ECS
components (lifecycle flags `Youngling`/`Retiree`, `Employed`, the
`CowFarmer`/`WheatFarmer` farm-role attachments, `Pregnancy`, and the
`Female.children_had` payload) flattened into one record.  The component
declarations live in `population/components.rs` and `food/components.rs`,
which are not part of the examined core; an absent component is a `false`
or `none` field. -/
structure Citizen where
  id : Nat
  colony : Nat
  birthday : Date
  height : ℚ
  weight : ℚ
  employed : Bool
  cowFarm : Option Nat
  wheatFarm : Option Nat
  youngling : Bool
  retiree : Bool
  pregnancy : Bool
  femaleChildrenHad : Option Nat
deriving DecidableEq, Repr

/- ------------------------------------------------------------------
Cooking (src/third_life/src/worlds/food.rs, `cook_food`)
------------------------------------------------------------------ -/

/-- A resource-pool entity: `(Entity, amount, ResourceOf { colony })`.  Stands
for one of `FoodResource`, `CarbResource`, `MeatResource`. -/
structure ResEntry where
  id : Nat
  colony : Nat
  amount : ℚ
deriving DecidableEq, Repr

/-- The notifications sent by `cook_food` (food.rs lines 185-187). -/
inductive FoodEvent where
  | carbConsumed (colony : Nat) (amount : ℚ)
  | meatConsumed (colony : Nat) (amount : ℚ)
  | foodCreated (colony : Nat) (amount : ℚ)
deriving DecidableEq, Repr

/-- food.rs line 173: `let food_cook_multiplier = 5.0;`. -/
def food_cook_multiplier : ℚ := 5

/-- food.rs lines 173-188: the per-colony conversion core of `cook_food`.
Takes the amounts of the colony's carb, meat and food pools; returns the new
amounts together with the notifications sent. -/
def cookColony (colony : Nat) (carb meat food : ℚ) :
    ℚ × ℚ × ℚ × List FoodEvent :=
  if 100 * food_cook_multiplier < carb ∧ 100 * food_cook_multiplier < meat then
    let carb_consumed_amount := 100 * food_cook_multiplier
    let meat_consumed_amount := 100 * food_cook_multiplier
    let food_created_amount := 100 * food_cook_multiplier
    (carb - carb_consumed_amount, meat - meat_consumed_amount,
      food + food_created_amount,
      [FoodEvent.carbConsumed colony carb_consumed_amount,
       FoodEvent.meatConsumed colony meat_consumed_amount,
       FoodEvent.foodCreated colony food_created_amount])
  else
    (carb, meat, food, [])

/-- `HashMap::entry(..).or_insert(entity)` over a query in iteration order:
the first entry of the given colony wins. -/
def firstOfColony (l : List ResEntry) (c : Nat) : Option ResEntry :=
  l.find? (fun r => r.colony == c)

/-- The key set of the colony map built from the food-resource query
(food.rs lines 135-144): every colony owning at least one `FoodResource`,
listed once. -/
def foodColonies (foods : List ResEntry) : List Nat :=
  (foods.map (fun r => r.colony)).dedup

/-- Processing of one colony of the map in `cook_food`'s final loop
(food.rs lines 162-188): look up the colony's food, carb and meat pool —
each `unwrap` panics (`none`) when the pool is missing — and run the
conversion core on their amounts. -/
def cookOne (foods carbs meats : List ResEntry) (c : Nat) :
    Option ((Nat × ℚ × ℚ × ℚ) × List FoodEvent) := do
  let f ← firstOfColony foods c
  let cb ← firstOfColony carbs c
  let mt ← firstOfColony meats c
  let r := cookColony c cb.amount mt.amount f.amount
  pure ((c, r.1, r.2.1, r.2.2.1), r.2.2.2)

/-- The `for (colony, resource_entities) in colony_food_resources_map` loop,
colonies processed in order; the first `none` models the first panic. -/
def cookAll (foods carbs meats : List ResEntry) :
    List Nat → Option (List ((Nat × ℚ × ℚ × ℚ) × List FoodEvent))
  | [] => some []
  | c :: rest => do
      let r ← cookOne foods carbs meats c
      let rs ← cookAll foods carbs meats rest
      pure (r :: rs)

/-- food.rs lines 127-190, `cook_food`: build the per-colony pool map —
inserting a carb or meat pool whose colony has no food pool `unwrap`s on a
missing map entry (lines 146-160), modelled by the guard — then cook every
colony.  Result: per colony the new `(carb, meat, food)` amounts and the
notifications, or `none` when the system panics. -/
def cook_food (foods carbs meats : List ResEntry) :
    Option (List ((Nat × ℚ × ℚ × ℚ) × List FoodEvent)) :=
  if (∀ r ∈ carbs, r.colony ∈ foodColonies foods) ∧
     (∀ r ∈ meats, r.colony ∈ foodColonies foods) then
    cookAll foods carbs meats (foodColonies foods)
  else
    none

/- ------------------------------------------------------------------
Cow-farm labor matching and production
(src/third_life/src/worlds/food/cow_farming.rs)
------------------------------------------------------------------ -/

/-- The `CowFarmNeedsWorker { colony, farm }` event. -/
structure CowFarmNeedsWorker where
  colony : Nat
  farm : Nat
deriving DecidableEq, Repr

/-- Application of one queued command `(citizen id, farm)` from
`get_cow_farm_workers`:
`try_insert((CowFarmer { farm }, Employed))` on that citizen. -/
def applyHire (citizens : List Citizen) (cmd : Nat × Nat) : List Citizen :=
  citizens.map (fun c =>
    if c.id == cmd.1 then { c with cowFarm := some cmd.2, employed := true }
    else c)

/-- cow_farming.rs lines 48-68, `get_cow_farm_workers`: for each pending
`CowFarmNeedsWorker` event, scan the `free_citizens` query
(`Without<Employed>`) in enumeration order and queue a hire command for the
first citizen of the event's colony; the queued `Commands` are deferred and
only applied after the loop (Bevy semantics), so every event of the batch
scans the same pre-run citizen snapshot. -/
def get_cow_farm_workers (citizens : List Citizen)
    (events : List CowFarmNeedsWorker) : List Citizen :=
  let free_citizens := citizens.filter (fun c => !c.employed)
  let cmds := events.filterMap (fun ev =>
    (free_citizens.find? (fun c => c.colony == ev.colony)).map
      (fun c => (c.id, ev.farm)))
  cmds.foldl applyHire citizens

/-- A `CowFarm` component: fixed size (ha) and the harvested accumulator. -/
structure CowFarm where
  size : ℚ
  harvested : ℚ
deriving DecidableEq, Repr

/-- cow_farming.rs lines 97-106, the per-farm harvest update of
`work_cow_farm`: one labor-day adds `1.0 * farmer_count`, clamped so the
accumulator never passes `size / 2`; returns the updated farm and the
clamped `harvested_amount`. -/
def work_cow_farm (farm : CowFarm) (farmer_count : Nat) : CowFarm × ℚ :=
  let amount0 : ℚ := 1 * (farmer_count : ℚ)
  let harvested_amount :=
    if farm.size / 2 - farm.harvested < amount0 then
      farm.size / 2 - farm.harvested
    else amount0
  ({ farm with harvested := farm.harvested + harvested_amount },
   harvested_amount)

/-- Iterated daily farm work: one `work_cow_farm` update per day, with the
given worker count on each day. -/
def work_cow_farm_days (farm : CowFarm) (counts : List Nat) : CowFarm :=
  counts.foldl (fun f c => (work_cow_farm f c).1) farm

/- ------------------------------------------------------------------
Population generator and lifecycle
(src/third_life/src/worlds/population.rs)
------------------------------------------------------------------ -/

/-- Modelled from the spec: the per-colony population configuration values the
core consumes (`WorldConfig::population()`); the config accessors live in
`worlds/config.rs`, outside the examined core. -/
structure PopConfig where
  age_of_adult : Nat
  age_of_retirement : Nat
  newBornHeight : ℚ
  newBornWeight : ℚ
  geneticHeight : ℚ
  geneticWeight : ℚ
deriving DecidableEq, Repr

/-- The biology and lifecycle flags a generated citizen is created with. -/
structure GeneratedCitizen where
  height : ℚ
  weight : ℚ
  daily_growth : ℚ
  daily_fattening : ℚ
  employable : Bool
  youngling : Bool
deriving DecidableEq, Repr

/-- population.rs lines 78-131: creation of one citizen in `init_citizens`.
`age` is the drawn (floored) age; `yearsSinceBirthday` is
`game_date.years_since(birthday)`, which is `age` or `age - 1` depending on
the random day-of-year.  The branch condition is the literal `18`, and the
else branch spawns the citizen with no lifecycle flag at all (neither
`Employable` nor `Youngling`). -/
def init_citizen (cfg : PopConfig) (age yearsSinceBirthday : Nat) :
    GeneratedCitizen :=
  let daily_growth := (cfg.geneticHeight - cfg.newBornHeight) / 9125
  let daily_fattening := (cfg.geneticWeight - cfg.newBornWeight) / 9125
  let height := ((age * 365 : Nat) : ℚ) * daily_growth + cfg.newBornHeight
  let weight := ((age * 365 : Nat) : ℚ) * daily_fattening + cfg.newBornWeight
  if 18 ≤ yearsSinceBirthday then
    { height := height, weight := weight, daily_growth := daily_growth,
      daily_fattening := daily_fattening, employable := true,
      youngling := false }
  else
    { height := height, weight := weight, daily_growth := daily_growth,
      daily_fattening := daily_fattening, employable := false,
      youngling := false }

/-- The `CitizenBirthday { entity, colony, age }` event. -/
structure CitizenBirthday where
  entity : Nat
  colony : Nat
  age : Nat
deriving DecidableEq, Repr

/-- population.rs lines 199-218, `check_birthdays`: on a day-changed event
with date `date`, emit one `CitizenBirthday` for every citizen whose birth
month and day equal the current month and day, carrying
`years_since(birthday).unwrap()`; the `unwrap` panics (`none`) when the
birthday lies in the future. -/
def check_birthdays (date : Date) : List Citizen → Option (List CitizenBirthday)
  | [] => some []
  | c :: rest =>
      if date.month == c.birthday.month && date.day == c.birthday.day then do
        let age ← yearsSince date c.birthday
        let evs ← check_birthdays date rest
        pure (⟨c.id, c.colony, age⟩ :: evs)
      else check_birthdays date rest

/-- population.rs lines 243-248: the entity mutation of `retirement` —
remove `WheatFarmer`, `CowFarmer` and `Employed`, insert `Retiree`. -/
def retireCitizen (c : Citizen) : Citizen :=
  { c with wheatFarm := none, cowFarm := none, employed := false,
           retiree := true }

/-- population.rs lines 235-251, `retirement`: for each pending
`CitizenBirthday` event, when the carried age equals the event colony's
configured `age_of_retirement`, apply the retirement mutation to that
citizen.  `age_of_retirement` maps a colony to its configured threshold. -/
def retirement (age_of_retirement : Nat → Nat)
    (events : List CitizenBirthday) (citizens : List Citizen) :
    List Citizen :=
  events.foldl (fun cs ev =>
    if ev.age = age_of_retirement ev.colony then
      cs.map (fun c => if c.id == ev.entity then retireCitizen c else c)
    else cs) citizens

/- ------------------------------------------------------------------
Population aggregator (population.rs, `update_population`)
------------------------------------------------------------------ -/

/-- population.rs line 141 with the fold of lines 160-163: size of the
`Query<&CitizenOf, With<Youngling>>` bucket of one colony. -/
def count_younglings (citizens : List Citizen) (colony : Nat) : Nat :=
  citizens.countP (fun c => c.youngling && c.colony == colony)

/-- population.rs line 142 with the fold of lines 168-171: size of the
`Query<&CitizenOf, With<Retiree>>` bucket of one colony. -/
def count_retirees (citizens : List Citizen) (colony : Nat) : Nat :=
  citizens.countP (fun c => c.retiree && c.colony == colony)

/-- population.rs line 140 with the fold of lines 164-167: size of the
`Query<&CitizenOf, (Without<Youngling>, Without<Retiree>,
Without<Pregnancy>)>` bucket of one colony. -/
def count_working_pop (citizens : List Citizen) (colony : Nat) : Nat :=
  citizens.countP (fun c =>
    (!c.youngling && !c.retiree && !c.pregnancy) && c.colony == colony)

/-- The total number of citizens of one colony (the `count` accumulated by
the citizens fold of lines 145-159). -/
def count_citizens (citizens : List Citizen) (colony : Nat) : Nat :=
  citizens.countP (fun c => c.colony == colony)

/-- The per-colony accumulator of the citizens fold (lines 148-158):
running average age, citizen count, running average height and weight. -/
structure AvgAcc where
  avg : ℚ
  count : Nat
  avg_height : ℚ
  avg_weight : ℚ
deriving DecidableEq, Repr

/-- One update of the citizens fold (population.rs lines 154-157):
`avg = (avg + age) / 2`, `count += 1`, and likewise for height and
weight. -/
def avgStep (a : AvgAcc) (obs : ℚ × ℚ × ℚ) : AvgAcc :=
  ⟨(a.avg + obs.1) / 2, a.count + 1, (a.avg_height + obs.2.1) / 2,
   (a.avg_weight + obs.2.2) / 2⟩

/-- population.rs lines 145-159: the citizens fold of `update_population`
restricted to one colony's stream of `(age, height, weight)` observations.
`acc.entry(colony).or_insert((age, 0, height, weight))` seeds the
accumulator with the first observation (`Option.getD`), after which every
observation — the first included — runs the pairwise update. -/
def citizensAvgFold (observations : List (ℚ × ℚ × ℚ)) : Option AvgAcc :=
  observations.foldl
    (fun acc obs => some (avgStep (acc.getD ⟨obs.1, 0, obs.2.1, obs.2.2⟩) obs))
    none

/-- population.rs lines 172-178: the women fold of `update_population`
restricted to one colony's stream of `children_had` observations:
`or_insert(children_had)` then `avg = (avg + children_had) / 2`. -/
def womenAvgFold (values : List ℚ) : Option ℚ :=
  values.foldl (fun acc v => some ((acc.getD v + v) / 2)) none

/-- Follows the spec's words (§4.6): the running pairwise-average fold —
start from the first observed value, and each subsequent value `v` updates
the running average as `avg = (avg + v) / 2`. -/
def specPairwiseAvg (first : ℚ) (rest : List ℚ) : ℚ :=
  rest.foldl (fun avg v => (avg + v) / 2) first

/- ------------------------------------------------------------------
Theorems
------------------------------------------------------------------ -/

/-- C1: one cooking step on a colony with carb and meat pools each strictly
above `100 * 5 = 500` subtracts 500 from carb and meat, adds 500 to prepared
food, and emits exactly one CarbConsumed, MeatConsumed and FoodCreated
notification each carrying `(colony, 500)`; otherwise nothing changes and
nothing is emitted; with 600/600 one step gives 100/100/500 and a second
step converts nothing. -/
theorem cook_food_batch_rule (colony : Nat) (carb meat food : ℚ) :
    (100 * food_cook_multiplier < carb → 100 * food_cook_multiplier < meat →
      cookColony colony carb meat food =
        (carb - 500, meat - 500, food + 500,
         [FoodEvent.carbConsumed colony 500, FoodEvent.meatConsumed colony 500,
          FoodEvent.foodCreated colony 500]))
    ∧ (carb ≤ 500 ∨ meat ≤ 500 →
        cookColony colony carb meat food = (carb, meat, food, []))
    ∧ cookColony colony 600 600 0 =
        (100, 100, 500,
         [FoodEvent.carbConsumed colony 500, FoodEvent.meatConsumed colony 500,
          FoodEvent.foodCreated colony 500])
    ∧ cookColony colony 100 100 500 = (100, 100, 500, []) := by
  refine ⟨?_, ?_, ?_, ?_⟩
  · intro h1 h2
    unfold cookColony
    rw [if_pos ⟨h1, h2⟩]
    norm_num [food_cook_multiplier]
  · intro h
    have : ¬(100 * food_cook_multiplier < carb ∧ 100 * food_cook_multiplier < meat) := by
      simp only [food_cook_multiplier]
      rcases h with h | h
      · intro hc
        nlinarith [hc.1]
      · intro hc
        nlinarith [hc.2]
    simp only [cookColony, if_neg this]
  · simp only [cookColony, food_cook_multiplier]
    norm_num
  · simp only [cookColony, food_cook_multiplier]
    norm_num

/-- C1 witness: the rule applied to the concrete 600/600 colony. -/
theorem cook_food_batch_rule_runs :
    cookColony 0 600 600 0 =
      (100, 100, 500,
       [FoodEvent.carbConsumed 0 500, FoodEvent.meatConsumed 0 500,
        FoodEvent.foodCreated 0 500]) := by
  have h := (cook_food_batch_rule 0 600 600 0).1
    (by norm_num [food_cook_multiplier]) (by norm_num [food_cook_multiplier])
  norm_num at h
  exact h

/-- Applying the same hire command twice equals applying it once: the update
keeps the citizen id and writes constant field values. -/
theorem applyHire_twice (cs : List Citizen) (cmd : Nat × Nat) :
    applyHire (applyHire cs cmd) cmd = applyHire cs cmd := by
  simp only [applyHire, List.map_map]
  refine List.map_congr_left ?_
  intro a _
  by_cases h : a.id == cmd.1 <;> simp [Function.comp, h]

/-- Folding the same hire command any positive number of times equals
applying it once. -/
theorem foldl_applyHire_replicate (cmd : Nat × Nat) :
    ∀ (n : Nat) (cs : List Citizen),
      (List.replicate n cmd).foldl applyHire (applyHire cs cmd) =
        applyHire cs cmd := by
  intro n
  induction n with
  | zero => intro cs; rfl
  | succ n ih =>
    intro cs
    rw [List.replicate_succ, List.foldl_cons, applyHire_twice, ih]

/-- filterMap of a constant list is a constant list (or empty). -/
theorem filterMapReplicate {α β : Type} (f : α → Option β) (a : α) :
    ∀ n, (List.replicate n a).filterMap f =
      match f a with
      | some b => List.replicate n b
      | none => [] := by
  intro n
  induction n with
  | zero => cases f a <;> simp
  | succ n ih =>
    rw [List.replicate_succ, List.filterMap_cons]
    cases h : f a with
    | none => simp only [h] at ih ⊢; exact ih
    | some b =>
      simp only [h] at ih ⊢
      rw [ih, ← List.replicate_succ]

/-- C2 counterexample: a farm short by M = 2 workers in a colony with N = 2
eligible idle citizens.  The claim demands min(2,2) = 2 distinct citizens
employed, but one run of the matching phase employs exactly 1 (both demand
notifications match the same first idle citizen, because the `Employed`
insertions are deferred commands). -/
theorem cow_matching_min_claim_false :
    (get_cow_farm_workers
        [⟨0, 0, ⟨2000, 1, 1⟩, 0, 0, false, none, none, false, false, false, none⟩,
         ⟨1, 0, ⟨2000, 1, 1⟩, 0, 0, false, none, none, false, false, false, none⟩]
        [⟨0, 7⟩, ⟨0, 7⟩]).countP (fun c => c.employed) = 1
    ∧ (1 : Nat) ≠ min 2 2 := by
  constructor
  · rfl
  · decide

/-- C2 (amended): one run of the matching phase over a batch of M ≥ 1
identical demand notifications (colony, farm) employs exactly the first
non-`Employed` citizen of that colony in enumeration order — every
notification of the batch matches that same citizen, since the queued
`Employed` insertions are applied only after the run — and leaves every
other citizen unchanged; when the colony has no idle citizen, nothing
changes. -/
theorem cow_matching_batch_behavior (citizens : List Citizen)
    (colony farm M : Nat) (hM : 1 ≤ M) :
    get_cow_farm_workers citizens
        (List.replicate M (⟨colony, farm⟩ : CowFarmNeedsWorker)) =
      match (citizens.filter (fun c => !c.employed)).find?
          (fun c => c.colony == colony) with
      | some w => citizens.map (fun c =>
          if c.id == w.id then { c with cowFarm := some farm, employed := true }
          else c)
      | none => citizens := by
  obtain ⟨n, rfl⟩ : ∃ n, M = n + 1 := ⟨M - 1, by omega⟩
  simp only [get_cow_farm_workers]
  rw [filterMapReplicate]
  cases hf : (citizens.filter (fun c => !c.employed)).find?
      (fun c => c.colony == colony) with
  | none => rfl
  | some w =>
    dsimp only [Option.map]
    rw [List.replicate_succ, List.foldl_cons, foldl_applyHire_replicate]
    rfl

/-- C2 witness: the amended batch rule applied to M = 2 notifications and
two idle citizens of colony 0. -/
theorem cow_matching_batch_behavior_runs :
    get_cow_farm_workers
        [⟨0, 0, ⟨2000, 1, 1⟩, 0, 0, false, none, none, false, false, false, none⟩,
         ⟨1, 0, ⟨2000, 1, 1⟩, 0, 0, false, none, none, false, false, false, none⟩]
        (List.replicate 2 (⟨0, 7⟩ : CowFarmNeedsWorker)) =
      match (([⟨0, 0, ⟨2000, 1, 1⟩, 0, 0, false, none, none, false, false, false, none⟩,
          ⟨1, 0, ⟨2000, 1, 1⟩, 0, 0, false, none, none, false, false, false,
            none⟩] : List Citizen).filter (fun c => !c.employed)).find?
          (fun c => c.colony == 0) with
      | some w =>
          ([⟨0, 0, ⟨2000, 1, 1⟩, 0, 0, false, none, none, false, false, false, none⟩,
            ⟨1, 0, ⟨2000, 1, 1⟩, 0, 0, false, none, none, false, false, false,
              none⟩] : List Citizen).map (fun c =>
            if c.id == w.id then { c with cowFarm := some 7, employed := true }
            else c)
      | none =>
          [⟨0, 0, ⟨2000, 1, 1⟩, 0, 0, false, none, none, false, false, false, none⟩,
           ⟨1, 0, ⟨2000, 1, 1⟩, 0, 0, false, none, none, false, false, false, none⟩] :=
  cow_matching_batch_behavior _ 0 7 2 (by norm_num)

/-- C10: the cow-farm matcher's eligibility filter checks exactly the absence
of `Employed` and membership in the demanding colony — any selected citizen
lacks `Employed` and belongs to the colony, and conversely every citizen
without `Employed` in the colony (whatever its other flags, a `Youngling` or
a `Retiree` included) is selected and assigned `CowFarmer` + `Employed`. -/
theorem cow_eligibility_only_employment_and_colony :
    (∀ (citizens : List Citizen) (ev : CowFarmNeedsWorker) (x : Citizen),
        (citizens.filter (fun c => !c.employed)).find?
            (fun c => c.colony == ev.colony) = some x →
          x.employed = false ∧ x.colony = ev.colony)
    ∧ (∀ (x : Citizen) (ev : CowFarmNeedsWorker),
        x.employed = false → x.colony = ev.colony →
          get_cow_farm_workers [x] [ev] =
            [{ x with cowFarm := some ev.farm, employed := true }]) := by
  constructor
  · intro citizens ev x hx
    have h1 := List.find?_some hx
    have h2 := List.mem_filter.mp (List.mem_of_find?_eq_some hx)
    refine ⟨by simpa using h2.2, by simpa using h1⟩
  · intro x ev hemp hcol
    simp [get_cow_farm_workers, applyHire, hemp, hcol]

/-- C10 witness: a citizen carrying the `Retiree` flag (retired earlier, so
not `Employed`) is selected and assigned as a cow farmer. -/
theorem cow_eligibility_only_employment_and_colony_runs :
    get_cow_farm_workers
        [⟨3, 0, ⟨1960, 1, 1⟩, 0, 0, false, none, none, false, true, false, none⟩]
        [⟨0, 7⟩] =
      [⟨3, 0, ⟨1960, 1, 1⟩, 0, 0, true, some 7, none, false, true, false, none⟩] :=
  cow_eligibility_only_employment_and_colony.2
    ⟨3, 0, ⟨1960, 1, 1⟩, 0, 0, false, none, none, false, true, false, none⟩
    ⟨0, 7⟩ rfl rfl

/-- The harvest update never changes a farm's size. -/
theorem work_cow_farm_size (farm : CowFarm) (c : Nat) :
    (work_cow_farm farm c).1.size = farm.size := rfl

/-- Under the capacity invariant, the harvest update yields exactly
`min (harvested + count) (size / 2)`. -/
theorem work_cow_farm_harvested_min (farm : CowFarm) (c : Nat)
    (h : farm.harvested ≤ farm.size / 2) :
    (work_cow_farm farm c).1.harvested =
      min (farm.harvested + (c : ℚ)) (farm.size / 2) := by
  simp only [work_cow_farm]
  by_cases hc : farm.size / 2 - farm.harvested < 1 * (c : ℚ)
  · rw [if_pos hc, min_eq_right (by linarith)]
    ring
  · rw [if_neg hc, min_eq_left (by linarith)]
    ring

/-- Iterated farm work preserves the capacity invariant and the size. -/
theorem work_cow_farm_days_cap (counts : List Nat) :
    ∀ farm : CowFarm, farm.harvested ≤ farm.size / 2 →
      (work_cow_farm_days farm counts).harvested ≤ farm.size / 2 ∧
      (work_cow_farm_days farm counts).size = farm.size := by
  induction counts with
  | nil => intro farm h; exact ⟨h, rfl⟩
  | cons c rest ih =>
    intro farm h
    have h1 : (work_cow_farm farm c).1.harvested ≤ farm.size / 2 := by
      rw [work_cow_farm_harvested_min farm c h]
      exact min_le_right _ _
    have h2 := ih (work_cow_farm farm c).1 (by rw [work_cow_farm_size]; exact h1)
    rw [work_cow_farm_size] at h2
    simpa [work_cow_farm_days] using h2

/-- C4: from any state with `harvested ≤ size / 2`, one daily work step adds
`1.0 * worker_count` clamped at `size / 2` (so the new accumulator equals
`min (harvested + count) (size / 2)`), stays below the cap, and any sequence
of further daily steps keeps `harvested ≤ size / 2`. -/
theorem cow_farm_harvest_cap (farm : CowFarm) (count : Nat)
    (counts : List Nat) (h : farm.harvested ≤ farm.size / 2) :
    (work_cow_farm farm count).1.harvested =
        min (farm.harvested + (count : ℚ)) (farm.size / 2)
    ∧ (work_cow_farm farm count).1.harvested ≤ farm.size / 2
    ∧ (work_cow_farm_days farm counts).harvested ≤ farm.size / 2 := by
  refine ⟨work_cow_farm_harvested_min farm count h, ?_, ?_⟩
  · rw [work_cow_farm_harvested_min farm count h]
    exact min_le_right _ _
  · exact (work_cow_farm_days_cap counts farm h).1

/-- C4 witness: a fresh livestock farm of size 500 worked by 4 workers, then
by 300 and 5 workers on later days. -/
theorem cow_farm_harvest_cap_runs :
    (work_cow_farm ⟨500, 0⟩ 4).1.harvested =
        min ((0 : ℚ) + ((4 : Nat) : ℚ)) ((500 : ℚ) / 2)
    ∧ (work_cow_farm ⟨500, 0⟩ 4).1.harvested ≤ (500 : ℚ) / 2
    ∧ (work_cow_farm_days ⟨500, 0⟩ [300, 5]).harvested ≤ (500 : ℚ) / 2 :=
  cow_farm_harvest_cap ⟨500, 0⟩ 4 [300, 5] (by norm_num)

/-- C3 counterexample: a citizen drawn with age 5 (years-since-birth also 5)
in a colony whose configured adult-age threshold is 18.  The claim demands
the `Youngling` flag on creation; the generator spawns the citizen with no
lifecycle flag at all. -/
theorem init_youngling_claim_false :
    (5 : Nat) < (⟨18, 65, 50, 7 / 2, 170, 70⟩ : PopConfig).age_of_adult
    ∧ (init_citizen ⟨18, 65, 50, 7 / 2, 170, 70⟩ 5 5).youngling = false
    ∧ (init_citizen ⟨18, 65, 50, 7 / 2, 170, 70⟩ 5 5).employable = false :=
  ⟨by norm_num, rfl, rfl⟩

/-- C3 (amended): the population generator marks a citizen `Employable`
exactly when the whole years elapsed since the drawn birth date reach the
literal 18 (not the colony's configured adult-age threshold), and it never
attaches the `Youngling` flag — citizens below 18 are created with no
lifecycle flag. -/
theorem init_flags_behavior (cfg : PopConfig) (age ys : Nat) :
    (init_citizen cfg age ys).employable = decide (18 ≤ ys)
    ∧ (init_citizen cfg age ys).youngling = false := by
  simp only [init_citizen]
  by_cases h : 18 ≤ ys <;> simp [h]

/-- C5: a birthday notification is emitted for a citizen exactly on dates
whose month and day equal the citizen's birth month and day, carrying the
whole years elapsed since birth; the retirement reaction fires exactly on
events whose age equals the event colony's configured retirement threshold,
replacing each targeted citizen by its retired version; the retired version
has no farm-role attachment, is not `Employed`, and is a `Retiree`. -/
theorem retirement_exact_on_threshold (age_of_retirement_cfg : Nat → Nat)
    (date : Date) (ev : CitizenBirthday) (citizens : List Citizen)
    (c : Citizen) :
    (c.birthday.year ≤ date.year →
      check_birthdays date [c] =
        some (if date.month = c.birthday.month ∧ date.day = c.birthday.day
          then [⟨c.id, c.colony, date.year - c.birthday.year⟩] else []))
    ∧ retirement age_of_retirement_cfg [ev] citizens =
        citizens.map (fun x =>
          if ev.age = age_of_retirement_cfg ev.colony ∧ x.id = ev.entity
          then retireCitizen x else x)
    ∧ ((retireCitizen c).cowFarm = none ∧ (retireCitizen c).wheatFarm = none
        ∧ (retireCitizen c).employed = false
        ∧ (retireCitizen c).retiree = true) := by
  refine ⟨?_, ?_, rfl, rfl, rfl, rfl⟩
  · intro h
    by_cases hm : date.month = c.birthday.month
    · by_cases hd : date.day = c.birthday.day
      · simp [check_birthdays, yearsSince, monthDayBefore, hm, hd, h]
      · simp [check_birthdays, hm, hd]
    · simp [check_birthdays, hm]
  · simp only [retirement, List.foldl_cons, List.foldl_nil]
    by_cases hage : ev.age = age_of_retirement_cfg ev.colony
    · rw [if_pos hage]
      refine List.map_congr_left ?_
      intro a _
      by_cases hid : a.id = ev.entity <;> simp [hid, hage]
    · rw [if_neg hage]
      simp [hage]

/-- C5 witness: a cow farmer born 1985-03-14, retirement threshold 65, on
date 2050-03-14 — the birthday event carries age 65 and retirement strips
the role and employment and sets `Retiree`. -/
theorem retirement_exact_on_threshold_runs :
    check_birthdays ⟨2050, 3, 14⟩
        [⟨9, 4, ⟨1985, 3, 14⟩, 0, 0, true, some 5, none, false, false, false, none⟩] =
      some [⟨9, 4, 65⟩]
    ∧ retirement (fun _ => 65) [⟨9, 4, 65⟩]
        [⟨9, 4, ⟨1985, 3, 14⟩, 0, 0, true, some 5, none, false, false, false, none⟩] =
      [⟨9, 4, ⟨1985, 3, 14⟩, 0, 0, false, none, none, false, true, false, none⟩] := by
  have h := retirement_exact_on_threshold (fun _ => 65) ⟨2050, 3, 14⟩
    ⟨9, 4, 65⟩
    [⟨9, 4, ⟨1985, 3, 14⟩, 0, 0, true, some 5, none, false, false, false, none⟩]
    ⟨9, 4, ⟨1985, 3, 14⟩, 0, 0, true, some 5, none, false, false, false, none⟩
  have h1 := h.1 (by norm_num)
  have h2 := h.2.1
  norm_num at h1 h2
  exact ⟨h1, h2⟩

/-- C6: for any citizen set in which no citizen carries both `Youngling` and
`Retiree` (the data-model invariant), the aggregator's bucket counts satisfy
younglings + working_pop + retirees ≤ count for every colony: each citizen
lands in at most one bucket (pregnant non-youngling non-retirees land in
none). -/
theorem population_buckets_le_count (citizens : List Citizen) (colony : Nat)
    (h : ∀ c ∈ citizens, ¬(c.youngling = true ∧ c.retiree = true)) :
    count_younglings citizens colony + count_working_pop citizens colony +
        count_retirees citizens colony ≤ count_citizens citizens colony := by
  induction citizens with
  | nil =>
    simp [count_younglings, count_working_pop, count_retirees, count_citizens]
  | cons a l ih =>
    have ha := h a (List.mem_cons_self a l)
    have ihl := ih (fun c hc => h c (List.mem_cons_of_mem a hc))
    simp only [count_younglings, count_working_pop, count_retirees,
      count_citizens, List.countP_cons] at ihl ⊢
    by_cases hy : a.youngling <;> by_cases hr : a.retiree <;>
      by_cases hp : a.pregnancy <;> by_cases hc : a.colony == colony <;>
        simp [hy, hr, hp, hc] at ha ⊢ <;> omega

/-- C6 witness: a colony with one youngling, one worker, one retiree and one
pregnant citizen — the buckets sum to 3 ≤ 4. -/
theorem population_buckets_le_count_runs :
    count_younglings
        [⟨0, 0, ⟨2040, 1, 1⟩, 0, 0, false, none, none, true, false, false, none⟩,
         ⟨1, 0, ⟨2020, 1, 1⟩, 0, 0, true, some 4, none, false, false, false, none⟩,
         ⟨2, 0, ⟨1980, 1, 1⟩, 0, 0, false, none, none, false, true, false, none⟩,
         ⟨3, 0, ⟨2020, 1, 1⟩, 0, 0, false, none, none, false, false, true, some 1⟩] 0 +
      count_working_pop
        [⟨0, 0, ⟨2040, 1, 1⟩, 0, 0, false, none, none, true, false, false, none⟩,
         ⟨1, 0, ⟨2020, 1, 1⟩, 0, 0, true, some 4, none, false, false, false, none⟩,
         ⟨2, 0, ⟨1980, 1, 1⟩, 0, 0, false, none, none, false, true, false, none⟩,
         ⟨3, 0, ⟨2020, 1, 1⟩, 0, 0, false, none, none, false, false, true, some 1⟩] 0 +
      count_retirees
        [⟨0, 0, ⟨2040, 1, 1⟩, 0, 0, false, none, none, true, false, false, none⟩,
         ⟨1, 0, ⟨2020, 1, 1⟩, 0, 0, true, some 4, none, false, false, false, none⟩,
         ⟨2, 0, ⟨1980, 1, 1⟩, 0, 0, false, none, none, false, true, false, none⟩,
         ⟨3, 0, ⟨2020, 1, 1⟩, 0, 0, false, none, none, false, false, true, some 1⟩] 0 ≤
    count_citizens
        [⟨0, 0, ⟨2040, 1, 1⟩, 0, 0, false, none, none, true, false, false, none⟩,
         ⟨1, 0, ⟨2020, 1, 1⟩, 0, 0, true, some 4, none, false, false, false, none⟩,
         ⟨2, 0, ⟨1980, 1, 1⟩, 0, 0, false, none, none, false, true, false, none⟩,
         ⟨3, 0, ⟨2020, 1, 1⟩, 0, 0, false, none, none, false, false, true, some 1⟩] 0 :=
  population_buckets_le_count _ 0 (by decide)

/-- The creation-time height is the same linear interpolation in both flag
branches of the generator. -/
theorem init_citizen_height (cfg : PopConfig) (age ys : Nat) :
    (init_citizen cfg age ys).height =
      ((age * 365 : Nat) : ℚ) *
          ((cfg.geneticHeight - cfg.newBornHeight) / 9125) +
        cfg.newBornHeight := by
  simp only [init_citizen]
  by_cases h : 18 ≤ ys <;> simp [h]

/-- C9: for a drawn age a ≤ 25 (and a genetic target above the newborn
baseline), the creation-time height equals the baseline exactly at a = 0,
equals the genetic target exactly at a = 25 (a × 365 = 9125), and lies
strictly between the two for 0 < a < 25. -/
theorem init_height_between (cfg : PopConfig) (age ys : Nat)
    (hgt : cfg.newBornHeight < cfg.geneticHeight) (hage : age ≤ 25) :
    (age = 0 → (init_citizen cfg age ys).height = cfg.newBornHeight)
    ∧ (age = 25 → (init_citizen cfg age ys).height = cfg.geneticHeight)
    ∧ (0 < age → age < 25 →
        cfg.newBornHeight < (init_citizen cfg age ys).height
        ∧ (init_citizen cfg age ys).height < cfg.geneticHeight) := by
  have h9 : (0 : ℚ) < 9125 := by norm_num
  refine ⟨?_, ?_, ?_⟩
  · intro h0
    subst h0
    rw [init_citizen_height]
    norm_num
  · intro h25
    subst h25
    rw [init_citizen_height]
    norm_num
    field_simp
  · intro h1 h2
    rw [init_citizen_height]
    have hd : (0 : ℚ) < cfg.geneticHeight - cfg.newBornHeight := by linarith
    have ha1 : (0 : ℚ) < ((age * 365 : Nat) : ℚ) := by
      exact_mod_cast Nat.mul_pos h1 (by norm_num)
    have ha2 : ((age * 365 : Nat) : ℚ) < 9125 := by
      have hlt : age * 365 < 9125 := by omega
      exact_mod_cast hlt
    constructor
    · have := mul_pos ha1 (div_pos hd h9)
      linarith
    · have hmul := mul_lt_mul_of_pos_right ha2
        (div_pos hd h9)
      have hcan : (9125 : ℚ) * ((cfg.geneticHeight - cfg.newBornHeight) / 9125)
          = cfg.geneticHeight - cfg.newBornHeight := by field_simp
      rw [hcan] at hmul
      linarith

/-- C9 witness: a 10-year-old with baseline 50 and genetic target 170 has
creation height strictly between 50 and 170. -/
theorem init_height_between_runs :
    (50 : ℚ) < (init_citizen ⟨18, 65, 50, 7 / 2, 170, 70⟩ 10 10).height
    ∧ (init_citizen ⟨18, 65, 50, 7 / 2, 170, 70⟩ 10 10).height < 170 :=
  (init_height_between ⟨18, 65, 50, 7 / 2, 170, 70⟩ 10 10 (by norm_num)
      (by norm_num)).2.2 (by norm_num) (by norm_num)

/-- Once the accumulator is seeded, the citizens fold is the plain
`avgStep` fold. -/
theorem citizensAvgFold_some (vs : List (ℚ × ℚ × ℚ)) :
    ∀ a : AvgAcc,
      vs.foldl
          (fun acc obs =>
            some (avgStep (acc.getD ⟨obs.1, 0, obs.2.1, obs.2.2⟩) obs))
          (some a) =
        some (vs.foldl avgStep a) := by
  induction vs with
  | nil => intro a; rfl
  | cons v vs ih => intro a; exact ih (avgStep a v)

/-- Componentwise characterization of the `avgStep` fold: each average
component is the pairwise fold of its own observation stream, and the count
adds the stream length. -/
theorem foldl_avgStep_char (vs : List (ℚ × ℚ × ℚ)) :
    ∀ a : AvgAcc,
      vs.foldl avgStep a =
        ⟨specPairwiseAvg a.avg (vs.map (fun x => x.1)),
         a.count + vs.length,
         specPairwiseAvg a.avg_height (vs.map (fun x => x.2.1)),
         specPairwiseAvg a.avg_weight (vs.map (fun x => x.2.2))⟩ := by
  induction vs with
  | nil => intro a; simp [specPairwiseAvg]
  | cons v vs ih =>
    intro a
    rw [List.foldl_cons, ih (avgStep a v)]
    simp only [avgStep, specPairwiseAvg, List.map_cons, List.foldl_cons,
      List.length_cons]
    congr 1
    omega

/-- Once seeded, the women fold is the plain pairwise fold. -/
theorem womenAvgFold_some (vs : List ℚ) :
    ∀ a : ℚ,
      vs.foldl (fun acc v => some ((acc.getD v + v) / 2)) (some a) =
        some (vs.foldl (fun avg v => (avg + v) / 2) a) := by
  induction vs with
  | nil => intro a; rfl
  | cons v vs ih => intro a; exact ih ((a + v) / 2)

/-- C7: on a non-empty observation stream, the aggregator's average age,
height, weight and children-per-mother each equal the running
pairwise-average fold — seeded with the first observed value, every later
value v updates the running value as (avg + v) / 2 — and this fold is not
the arithmetic mean and depends on enumeration order: on the three-value
stream 0, 0, 3 it yields 3/2 while the true mean is 1, and the permuted
stream 3, 0, 0 yields a different value again. -/
theorem averages_are_pairwise_fold :
    (∀ (v : ℚ × ℚ × ℚ) (vs : List (ℚ × ℚ × ℚ)),
        citizensAvgFold (v :: vs) =
          some ⟨specPairwiseAvg v.1 (vs.map (fun x => x.1)),
                vs.length + 1,
                specPairwiseAvg v.2.1 (vs.map (fun x => x.2.1)),
                specPairwiseAvg v.2.2 (vs.map (fun x => x.2.2))⟩)
    ∧ (∀ (w : ℚ) (ws : List ℚ),
        womenAvgFold (w :: ws) = some (specPairwiseAvg w ws))
    ∧ specPairwiseAvg 0 [0, 3] = 3 / 2
    ∧ ((0 : ℚ) + 0 + 3) / 3 = 1
    ∧ specPairwiseAvg 0 [0, 3] ≠ ((0 : ℚ) + 0 + 3) / 3
    ∧ specPairwiseAvg 3 [0, 0] ≠ specPairwiseAvg 0 [0, 3] := by
  refine ⟨?_, ?_, by norm_num [specPairwiseAvg], by norm_num,
    by norm_num [specPairwiseAvg], by norm_num [specPairwiseAvg]⟩
  · intro v vs
    unfold citizensAvgFold
    rw [List.foldl_cons]
    simp only [Option.getD_none]
    rw [citizensAvgFold_some, foldl_avgStep_char]
    have h1 : (v.1 + v.1) / 2 = v.1 := by ring
    have h2 : (v.2.1 + v.2.1) / 2 = v.2.1 := by ring
    have h3 : (v.2.2 + v.2.2) / 2 = v.2.2 := by ring
    simp only [avgStep, h1, h2, h3, Option.some.injEq, AvgAcc.mk.injEq,
      true_and, and_true]
    omega
  · intro w ws
    unfold womenAvgFold
    rw [List.foldl_cons]
    simp only [Option.getD_none]
    rw [womenAvgFold_some]
    have hw : (w + w) / 2 = w := by ring
    rw [hw]
    rfl

/-- C8 counterexample: a colony with a duplicated carbohydrate pool.  The
claim demands a fatal error; the step proceeds (`isSome`) and silently uses
the first-enumerated duplicate (amount 600, not 9999), behaving exactly as
if the second pool did not exist. -/
theorem cook_food_duplicate_not_fatal :
    (cook_food [⟨0, 0, 0⟩] [⟨1, 0, 600⟩, ⟨2, 0, 9999⟩] [⟨3, 0, 600⟩]).isSome
        = true
    ∧ cook_food [⟨0, 0, 0⟩] [⟨1, 0, 600⟩, ⟨2, 0, 9999⟩] [⟨3, 0, 600⟩] =
        cook_food [⟨0, 0, 0⟩] [⟨1, 0, 600⟩] [⟨3, 0, 600⟩] := by
  constructor
  · decide
  · have hfc : firstOfColony [⟨1, 0, 600⟩, ⟨2, 0, 9999⟩] 0 =
        firstOfColony [⟨1, 0, 600⟩] 0 := by decide
    unfold cook_food
    rw [if_pos (by decide), if_pos (by decide)]
    have hd : foodColonies [(⟨0, 0, 0⟩ : ResEntry)] = [0] := by decide
    rw [hd]
    simp only [cookAll, cookOne, hfc]

/-- `cookOne` succeeds exactly when the colony has a carb and a meat pool
(the food pool exists by construction for map keys). -/
theorem cookOne_isSome (foods carbs meats : List ResEntry) (c : Nat)
    (hc : c ∈ foodColonies foods) :
    (cookOne foods carbs meats c).isSome = true ↔
      (firstOfColony carbs c).isSome = true ∧
      (firstOfColony meats c).isSome = true := by
  have hf : (firstOfColony foods c).isSome = true := by
    have hmem : c ∈ foods.map (fun r => r.colony) := List.mem_dedup.mp hc
    obtain ⟨r, hr, hrc⟩ := List.mem_map.mp hmem
    rw [firstOfColony, List.find?_isSome]
    exact ⟨r, hr, by simp [hrc]⟩
  unfold cookOne
  cases hfood : firstOfColony foods c with
  | none => rw [hfood] at hf; simp at hf
  | some f =>
    cases hcb : firstOfColony carbs c with
    | none => simp [hcb]
    | some cb =>
      cases hmt : firstOfColony meats c with
      | none => simp [hcb, hmt]
      | some mt => simp [hcb, hmt]

/-- `cookAll` succeeds exactly when every processed colony succeeds. -/
theorem cookAll_isSome (foods carbs meats : List ResEntry) :
    ∀ cs : List Nat,
      (cookAll foods carbs meats cs).isSome = true ↔
        ∀ c ∈ cs, (cookOne foods carbs meats c).isSome = true := by
  intro cs
  induction cs with
  | nil => simp [cookAll]
  | cons c rest ih =>
    cases h1 : cookOne foods carbs meats c with
    | none =>
      have hnone : cookAll foods carbs meats (c :: rest) = none := by
        simp [cookAll, h1]
      rw [hnone]
      simp only [Option.isSome_none, Bool.false_eq_true, false_iff]
      intro hall
      have hc := hall c (List.mem_cons_self c rest)
      rw [h1] at hc
      simp at hc
    | some r =>
      cases h2 : cookAll foods carbs meats rest with
      | none =>
        have hnone : cookAll foods carbs meats (c :: rest) = none := by
          simp [cookAll, h1, h2]
        rw [hnone]
        simp only [Option.isSome_none, Bool.false_eq_true, false_iff]
        intro hall
        have hrest : (cookAll foods carbs meats rest).isSome = true := by
          refine ih.mpr ?_
          intro x hx
          exact hall x (List.mem_cons_of_mem c hx)
        rw [h2] at hrest
        simp at hrest
      | some rs =>
        have hsome : cookAll foods carbs meats (c :: rest) = some (r :: rs) := by
          simp [cookAll, h1, h2]
        rw [hsome]
        constructor
        · intro _ x hx
          rcases List.mem_cons.mp hx with rfl | hx2
          · rw [h1]; rfl
          · refine (ih.mp ?_) x hx2
            rw [h2]; rfl
        · intro _; rfl

/-- C8 (amended): the cooking step fails fatally exactly when some carb or
meat pool's colony has no food pool, or some colony with a food pool lacks a
carb or meat pool — a missing pool is fatal; a duplicated pool is not
detected, the step silently uses the first-enumerated pool of that kind. -/
theorem cook_food_fatal_iff_missing (foods carbs meats : List ResEntry) :
    (cook_food foods carbs meats).isSome = true ↔
      (∀ r ∈ carbs, r.colony ∈ foodColonies foods) ∧
      (∀ r ∈ meats, r.colony ∈ foodColonies foods) ∧
      (∀ c ∈ foodColonies foods,
        (firstOfColony carbs c).isSome = true ∧
        (firstOfColony meats c).isSome = true) := by
  unfold cook_food
  by_cases hg : (∀ r ∈ carbs, r.colony ∈ foodColonies foods) ∧
      (∀ r ∈ meats, r.colony ∈ foodColonies foods)
  · rw [if_pos hg, cookAll_isSome]
    constructor
    · intro h
      refine ⟨hg.1, hg.2, ?_⟩
      intro c hc
      exact (cookOne_isSome foods carbs meats c hc).mp (h c hc)
    · intro h c hc
      exact (cookOne_isSome foods carbs meats c hc).mpr (h.2.2 c hc)
  · rw [if_neg hg]
    simp only [Option.isSome_none, Bool.false_eq_true, false_iff]
    intro hcon
    exact hg ⟨hcon.1, hcon.2.1⟩

/-- C7 witness: the citizens fold on the concrete stream (1,2,3), (5,6,7)
yields the pairwise averages 3, 4, 5 with count 2. -/
theorem averages_are_pairwise_fold_runs :
    citizensAvgFold [(1, 2, 3), (5, 6, 7)] = some ⟨3, 2, 4, 5⟩ := by
  have h := averages_are_pairwise_fold.1 (1, 2, 3) [(5, 6, 7)]
  norm_num [specPairwiseAvg] at h
  exact h

/-- C8 witness: a colony whose carbohydrate pool is missing makes the
cooking step fail fatally. -/
theorem cook_food_fatal_iff_missing_runs :
    cook_food [⟨0, 0, 0⟩] [] [⟨3, 0, 600⟩] = none := by
  have h := cook_food_fatal_iff_missing [⟨0, 0, 0⟩] [] [⟨3, 0, 600⟩]
  cases hx : cook_food [⟨0, 0, 0⟩] [] [⟨3, 0, 600⟩] with
  | none => rfl
  | some v =>
    exfalso
    have hs : (cook_food [⟨0, 0, 0⟩] [] [⟨3, 0, 600⟩]).isSome = true := by
      rw [hx]; rfl
    have hmiss := (h.mp hs).2.2 0 (by decide)
    simp [firstOfColony] at hmiss
